import Mathlib

/-!
Verification of `src/python/lands2hlf.py`: a datacard-to-HLF translator.
The script is embedded shallowly: reals are modelled exactly as rationals
(the card values exercised here are small decimals that a double represents
exactly), file lines as `List String`, the process's fatal exceptions as an
error type, and the printed output as a list of lines paired with the
exception, if any, that ended the run after those lines were printed.
-/

set_option maxRecDepth 16384

namespace Lands2HLF

/-- The Python runtime errors the script can die with: the explicit
`RuntimeError` raises with their message, plus `IndexError` (out-of-range
subscript), `ValueError` (failed `int`/`float` conversion), `NameError`
(an undefined variable referenced while building an error message) and
`ZeroDivisionError`. -/
inductive PyErr where
  | runtimeError (msg : String)
  | indexError
  | valueError
  | nameError
  | zeroDivisionError
deriving DecidableEq, Repr

/-- Python list subscript `l[i]` for nonnegative `i`: `IndexError` when out
of range. -/
def pyGet {α : Type} (l : List α) (i : Nat) : Except PyErr α :=
  match l.get? i with
  | some a => .ok a
  | none => .error .indexError

/-- `l[b][p]`. -/
def pyGet2 {α : Type} (l : List (List α)) (b p : Nat) : Except PyErr α := do
  let r ← pyGet l b
  pyGet r p

/-- `l[n][b][p]`. -/
def pyGet3 {α : Type} (l : List (List (List α))) (n b p : Nat) : Except PyErr α := do
  let r ← pyGet l n
  pyGet2 r b p

/-- Whitespace for Python `str.split()` with no argument. -/
def isPyWS (c : Char) : Bool :=
  c = ' ' || c = '\t' || c = '\n' || c = '\r'

/-- Split a character list on runs of whitespace, discarding empty pieces
(the behaviour of Python `str.split()`); `cur` is the current word reversed. -/
def splitWSAux : List Char → List Char → List (List Char)
  | [], cur => if cur.isEmpty then [] else [cur.reverse]
  | c :: rest, cur =>
    if isPyWS c then
      if cur.isEmpty then splitWSAux rest [] else cur.reverse :: splitWSAux rest []
    else splitWSAux rest (c :: cur)

/-- `l.split()`. -/
def pySplit (s : String) : List String :=
  (splitWSAux s.data []).map fun cs => String.mk cs

/-- `l.startswith("--")`. -/
def startsDashDash (s : String) : Bool :=
  match s.data with
  | '-' :: '-' :: _ => true
  | _ => false

/-- Value of a list of decimal digit characters. -/
def digitsToNat (cs : List Char) : Nat :=
  cs.foldl (fun acc c => acc * 10 + (c.toNat - 48)) 0

/-- All characters are decimal digits. -/
def allDigits (cs : List Char) : Bool :=
  cs.all fun c => c.isDigit

/-- Python `int(s)` on a whitespace-free token: an optional sign followed by
one or more digits; anything else raises `ValueError`. -/
def pyToInt (s : String) : Except PyErr Int :=
  match s.data with
  | [] => .error .valueError
  | '-' :: rest =>
    if !rest.isEmpty && allDigits rest then .ok (-(digitsToNat rest : Int))
    else .error .valueError
  | '+' :: rest =>
    if !rest.isEmpty && allDigits rest then .ok (digitsToNat rest : Int)
    else .error .valueError
  | cs =>
    if allDigits cs then .ok (digitsToNat cs : Int) else .error .valueError

/-- The numeric value of sign, integer digits, fractional digits and
exponent, as an exact rational. -/
def floatVal (sgn : ℚ) (ip fp : List Char) (esgn : Int) (ev : Nat) : ℚ :=
  let base : ℚ := (digitsToNat ip : ℚ) + (digitsToNat fp : ℚ) / 10 ^ fp.length
  sgn * (if esgn ≥ 0 then base * 10 ^ ev else base / 10 ^ ev)

/-- Python `float(s)` on a whitespace-free token: optional sign, a decimal
mantissa (digits, optionally with a point) and an optional exponent;
anything else raises `ValueError`. The value is kept exact as a rational. -/
def pyFloat (s : String) : Except PyErr ℚ :=
  let cs := s.data
  let sgnSplit : ℚ × List Char :=
    match cs with
    | '-' :: t => (-1, t)
    | '+' :: t => (1, t)
    | _ => (1, cs)
  let sgn := sgnSplit.1
  let cs1 := sgnSplit.2
  let ip := cs1.takeWhile Char.isDigit
  let r1 := cs1.dropWhile Char.isDigit
  let fpSplit : List Char × List Char :=
    match r1 with
    | '.' :: t => (t.takeWhile Char.isDigit, t.dropWhile Char.isDigit)
    | _ => ([], r1)
  let fp := fpSplit.1
  let r2 := fpSplit.2
  let mantOk := !ip.isEmpty || !fp.isEmpty
  match r2 with
  | [] => if mantOk then .ok (floatVal sgn ip fp 1 0) else .error .valueError
  | e :: t =>
    if e = 'e' || e = 'E' then
      let eSplit : Int × List Char :=
        match t with
        | '-' :: u => (-1, u)
        | '+' :: u => (1, u)
        | _ => (1, t)
      if mantOk && !eSplit.2.isEmpty && allDigits eSplit.2 then
        .ok (floatVal sgn ip fp eSplit.1 (digitsToNat eSplit.2))
      else .error .valueError
    else .error .valueError

/-- `float(x)` over a list of tokens (a Python list comprehension: the first
failure raises). -/
def mapFloat (ts : List String) : Except PyErr (List ℚ) :=
  ts.mapM pyFloat

instance {ε α : Type} [DecidableEq ε] [DecidableEq α] : DecidableEq (Except ε α) := fun x y =>
  match x, y with
  | .ok a, .ok b => if h : a = b then .isTrue (by rw [h]) else .isFalse (by simp [h])
  | .error a, .error b => if h : a = b then .isTrue (by rw [h]) else .isFalse (by simp [h])
  | .ok _, .error _ => .isFalse (by simp)
  | .error _, .ok _ => .isFalse (by simp)

/-- Floor of a rational as an integer (denominator is positive). -/
def qfloor (q : ℚ) : Int :=
  Int.fdiv q.num q.den

/-- Absolute value, kept kernel-evaluable. -/
def qabs (q : ℚ) : ℚ :=
  if q < 0 then -q else q

/-- Round to the nearest integer, ties to even: the rounding C's printf
applies when formatting (the values formatted in this development are
exact at 6 digits, so ties do not arise). -/
def roundHalfEven (q : ℚ) : Int :=
  let f := qfloor q
  let r := q - (f : ℚ)
  if r < 1 / 2 then f
  else if 1 / 2 < r then f + 1
  else if f % 2 = 0 then f else f + 1

/-- Left-pad a string with zeros to length `k`. -/
def padZeros (s : String) (k : Nat) : String :=
  String.mk (List.replicate (k - s.length) '0') ++ s

/-- C `printf("%f", x)`: fixed notation with six digits after the point. -/
def fmtF (q : ℚ) : String :=
  let m := (roundHalfEven (qabs q * 10 ^ 6)).toNat
  let body := toString (m / 10 ^ 6) ++ "." ++ padZeros (toString (m % 10 ^ 6)) 6
  if q < 0 then "-" ++ body else body

/-- Drop trailing `'0'` characters. -/
def stripZeros (cs : List Char) : List Char :=
  (cs.reverse.dropWhile fun c => c = '0').reverse

/-- Smallest `k ≥ 1` with `a * 10 ^ k ≥ 1`, for `0 < a < 1`; `fuel` bounds
the search (the denominator's digit count always suffices). -/
def smallExpAux (a : ℚ) : Nat → Nat → Nat
  | 0, k => k
  | fuel + 1, k => if 1 ≤ a * 10 ^ k then k else smallExpAux a fuel (k + 1)

/-- Decimal exponent `X` of `a > 0`: `10 ^ X ≤ a < 10 ^ (X + 1)`. -/
def decExp (a : ℚ) : Int :=
  if 1 ≤ a then ((toString (qfloor a).toNat).length : Int) - 1
  else -(smallExpAux a ((toString a.den).length + 1) 1 : Int)

/-- Multiply by `10 ^ k` for an integer `k`. -/
def mulPow10 (a : ℚ) (k : Int) : ℚ :=
  if 0 ≤ k then a * 10 ^ k.toNat else a / 10 ^ (-k).toNat

/-- Render the six significant digits `ds` with decimal exponent `x` in the
fixed (`-4 ≤ x < 6`) or scientific style of `%g`, trailing zeros stripped. -/
def fmtGBody (ds : List Char) (x : Int) : String :=
  if -4 ≤ x && x < 6 then
    if 0 ≤ x then
      let ip := ds.take (x.toNat + 1)
      let fp := stripZeros (ds.drop (x.toNat + 1))
      String.mk ip ++ (if fp.isEmpty then "" else "." ++ String.mk fp)
    else
      "0." ++ String.mk (List.replicate (-1 - x).toNat '0') ++ String.mk (stripZeros ds)
  else
    let fp := stripZeros (ds.drop 1)
    String.mk (ds.take 1) ++ (if fp.isEmpty then "" else "." ++ String.mk fp) ++
      "e" ++ (if x < 0 then "-" else "+") ++ padZeros (toString x.natAbs) 2

/-- C `printf("%g", x)` (the default 6 significant digits) on an exact
rational: shortest fixed or scientific form with trailing zeros removed. -/
def fmtG (q : ℚ) : String :=
  if q = 0 then "0"
  else
    let a := qabs q
    let x0 := decExp a
    let m0 := roundHalfEven (mulPow10 a (5 - x0))
    let m := if m0 = 10 ^ 6 then (10 : Int) ^ 5 else m0
    let x := if m0 = 10 ^ 6 then x0 + 1 else x0
    let body := fmtGBody (toString m.toNat).data x
    if q < 0 then "-" ++ body else body

/-- Python `sep.join(xs)`. -/
def pyJoin (sep : String) : List String → String
  | [] => ""
  | [x] => x
  | x :: y :: rest => x ++ sep ++ pyJoin sep (y :: rest)

/-- Python 2 floor division `a / b` on ints; `ZeroDivisionError` on 0. -/
def pyDiv (a b : Int) : Except PyErr Int :=
  if b = 0 then .error .zeroDivisionError else .ok (Int.fdiv a b)

/-- Python `range(a, b)`. -/
def pyRange (a b : Nat) : List Nat :=
  List.range' a (b - a)

/-- The script's module-level variables once the two parsing passes are done:
`bins`/`processes`/`nuisances` from the header (`processes` is the declared
`jmax` plus one), the observation row, the rate table `exp` (bin-major) and
the systematics table `systs` (per systematic, bin-major). -/
structure Model where
  bins : Int
  processes : Int
  nuisances : Int
  obs : List ℚ
  exp : List (List ℚ)
  systs : List (List (List ℚ))
deriving DecidableEq, Repr

/-- The initial values of the module-level variables (lines 13-17). -/
def initState : Model :=
  { bins := 1, processes := 1, nuisances := 0, obs := [], exp := [], systs := [] }

/-- One step of the first pass: either keep scanning with an updated state,
or break out of the loop at the `rate` line. -/
inductive StepOut where
  | cont (st : Model)
  | brk (st : Model)
deriving DecidableEq, Repr

/-- The state carried by a step outcome. -/
def StepOut.state : StepOut → Model
  | .cont st => st
  | .brk st => st

/-- Line 29-30: `for (i,x) in enumerate(f[1:]): if x != str(i/processes+1)`.
On a mismatch the script tries to raise a `RuntimeError` whose message
interpolates the variable `line`, which is defined nowhere in the script
(the loop variable is `l`), so what Python actually raises is a
`NameError` from evaluating the message. -/
def checkBinCells (cells : List String) (processes : Int) : Except PyErr Unit :=
  cells.enum.foldlM
    (fun _ ix => do
      let q ← pyDiv (ix.1 : Int) processes
      if ix.2 ≠ toString (q + 1) then .error .nameError else pure ())
    ()

/-- Lines 35-36: the bin-major rate row of bin `b`,
`[float(f[1+(b*processes + p)]) for p in range(processes)]`. -/
def rateRow (f : List String) (processes : Int) (b : Nat) : Except PyErr (List ℚ) :=
  (List.range processes.toNat).mapM fun p => do
    let t ← pyGet f (1 + (b * processes.toNat + p))
    pyFloat t

/-- Lines 46-47: the bin-major systematics row of bin `b`,
`[float(f[2+(b*processes + p)]) for p in range(processes)]`. -/
def systRow (f : List String) (processes : Int) (b : Nat) : Except PyErr (List ℚ) :=
  (List.range processes.toNat).mapM fun p => do
    let t ← pyGet f (2 + (b * processes.toNat + p))
    pyFloat t

/-- One line of the first pass (lines 18-37 of the script), on the line's
token list `f`: skip blank lines and dispatch on the leading keyword;
`rate` parses the whole expected-yield table and breaks out of the pass. -/
def stepTok (st : Model) (f : List String) : Except PyErr StepOut :=
  match f with
  | [] => .ok (.cont st)
  | w :: _ =>
    if w = "imax" then do
      let t ← pyGet f 1
      let v ← pyToInt t
      .ok (.cont { st with bins := v })
    else if w = "jmax" then do
      let t ← pyGet f 1
      let v ← pyToInt t
      .ok (.cont { st with processes := v + 1 })
    else if w = "kmax" then do
      let t ← pyGet f 1
      let v ← pyToInt t
      .ok (.cont { st with nuisances := v })
    else if w = "Observation" then do
      let qs ← mapFloat (f.drop 1)
      if (qs.length : Int) ≠ st.bins then
        .error (.runtimeError ("Found " ++ toString qs.length ++ " observations but "
          ++ toString st.bins ++ " bins"))
      else .ok (.cont { st with obs := qs })
    else if w = "bin" then
      if ((f.drop 1).length : Int) ≠ st.bins * st.processes then
        .error (.runtimeError ("Malformed bin line: len " ++ toString (f.drop 1).length
          ++ ", while bins*processes = " ++ toString st.bins ++ "*" ++ toString st.processes))
      else do
        checkBinCells (f.drop 1) st.processes
        .ok (.cont st)
    else if w = "process" then
      if ((f.drop 1).length : Int) < st.bins * st.processes then
        .error (.runtimeError ("Malformed process line: len " ++ toString (f.drop 1).length
          ++ ", while bins*processes = " ++ toString st.bins ++ "*" ++ toString st.processes))
      else .ok (.cont st)
    else if w = "rate" then
      if ((f.drop 1).length : Int) < st.bins * st.processes then
        .error (.runtimeError ("Malformed rate line: " ++ toString (f.drop 1).length
          ++ ", while bins*processes = " ++ toString st.bins ++ "*" ++ toString st.processes))
      else do
        let e ← (List.range st.bins.toNat).mapM (rateRow f st.processes)
        .ok (.brk { st with exp := e })
    else .ok (.cont st)

/-- One line of the first pass: `f = l.split()` and the keyword dispatch. -/
def step (st : Model) (l : String) : Except PyErr StepOut :=
  stepTok st (pySplit l)

/-- The first `for l in file` loop: it stops at the end of input or at the
`rate` line, returning the state and the lines the loop did not consume
(the file iterator's remainder, which the second loop then reads). -/
def firstPass (st : Model) : List String → Except PyErr (Model × List String)
  | [] => .ok (st, [])
  | l :: rest =>
    match step st l with
    | .error e => .error e
    | .ok (.cont st1) => firstPass st1 rest
    | .ok (.brk st1) => .ok (st1, rest)

/-- The second `for l in file` loop (lines 38-48): every remaining line that
does not start with `--` is a systematics row `idx pdf v v ...`. -/
def secondPass (st : Model) : List String → Except PyErr Model
  | [] => .ok st
  | l :: rest =>
    if startsDashDash l then secondPass st rest
    else
      let f := pySplit l
      match (do
        let t0 ← pyGet f 0
        let isyst ← pyToInt t0
        let pdfName ← pyGet f 1
        if isyst ≠ (st.systs.length : Int) + 1 then
          .error (.runtimeError ("Unexpected systematic " ++ toString isyst))
        else if pdfName ≠ "lnN" then
          .error (.runtimeError ("Unsupported pdf " ++ pdfName))
        else if ((f.drop 1).length : Int) < st.bins * st.processes then
          .error (.runtimeError ("Malformed rate line: " ++ toString (f.drop 1).length
            ++ ", while bins*processes = " ++ toString st.bins ++ "*" ++ toString st.processes))
        else (List.range st.bins.toNat).mapM (systRow f st.processes) :
          Except PyErr (List (List ℚ))) with
      | .error e => .error e
      | .ok errline => secondPass { st with systs := st.systs ++ [errline] } rest

/-- Both parsing passes over the card's lines. -/
def parseCard (input : List String) : Except PyErr Model := do
  let (st, rest) ← firstPass initState input
  secondPass st rest

/-!
The generator. Output is modelled as the list of printed lines together
with the exception, if any, that killed the process after those lines had
been printed (`none` on a clean run): Python prints each statement as it
goes, so a late `IndexError` leaves earlier lines already emitted.
-/

/-- An emission result: lines printed so far, then an optional fatal error. -/
abbrev Emit := List String × Option PyErr

/-- Sequential composition of emissions: once a statement has raised,
nothing later prints. -/
def seqE (a b : Emit) : Emit :=
  match a with
  | (ls, some e) => (ls, some e)
  | (ls, none) => (ls ++ b.1, b.2)

/-- `for i in range(n): print(stmt i)` where building statement `i` may
raise: lines print in order up to the first failure. -/
def emitLoop (f : Nat → Except PyErr String) : Nat → Emit
  | 0 => ([], none)
  | n + 1 =>
    match emitLoop f n with
    | (ls, some e) => (ls, some e)
    | (ls, none) =>
      match f (n) with
      | .ok s => (ls ++ [s], none)
      | .error e => (ls, some e)

/-- `seqE` folded over `for b in range(n)` bodies that each emit a group. -/
def seqLoop (g : Nat → Emit) : Nat → Emit
  | 0 => ([], none)
  | n + 1 => seqE (seqLoop g n) (g n)

/-- Lines 60-66: the observables section. With observations present each
`n_obs_bin<b>` carries `obs[b]` (printf `%f`) as initial value in
`[0, 10000]`; otherwise it is a free range. The grouping `set(...)` line
follows. -/
def obsSection (m : Model) : Emit :=
  seqE
    (if m.obs.length ≠ 0 then
      seqE (["/// ----- observables (already set to asimov values) -----"], none)
        (emitLoop
          (fun b => do
            let v ← pyGet m.obs b
            pure ("n_obs_bin" ++ toString b ++ "[" ++ fmtF v ++ ",0,10000];"))
          m.bins.toNat)
    else
      ("/// ----- observables -----" ::
        (List.range m.bins.toNat).map (fun b => "n_obs_bin" ++ toString b ++ "[0,10000];"),
        none))
    (["observables = set( " ++
      pyJoin "," ((List.range m.bins.toNat).map fun b => "n_obs_bin" ++ toString b) ++ " );"],
      none)

/-- Lines 68-74: the fixed parameters-of-interest block, printed as one
triple-quoted string (its leading and trailing newlines give the blank
lines). -/
def poiSection : Emit :=
  (["",
    "/// ----- parameters of interest -----",
    "// signal strenght",
    "r[0,20];",
    "// set of all paramers of interest",
    "POI = set(r);",
    ""], none)

/-- Lines 76-80: the nuisance priors, emitted only when `nuisances` is
nonzero (Python truthiness). -/
def nuisSection (m : Model) : Emit :=
  if m.nuisances ≠ 0 then
    ("/// ----- nuisances -----" ::
      ((List.range m.nuisances.toNat).map fun n =>
        "thetaPdf_" ++ toString n ++ " = Gaussian(theta_" ++ toString n ++ "[-5,5], 0, 1);") ++
      ["nuisances   =  set( " ++
        pyJoin "," ((List.range m.nuisances.toNat).map fun n => "theta_" ++ toString n) ++ " );",
       "nuisancePdf = PROD( " ++
        pyJoin "," ((List.range m.nuisances.toNat).map fun n => "thetaPdf_" ++ toString n) ++ " );"],
      none)
  else ([], none)

/-- Lines 85-93: the statement for one bin/process pair. The expression
string starts from the `%g`-formatted rate; every nuisance whose scale at
`(n, b, p)` differs from 1.0 appends a `pow` factor and a `theta_<n>`
argument; with no such nuisance a plain fixed-value symbol is printed. -/
def procStmt (m : Model) (b p : Nat) : Except PyErr String := do
  let e ← pyGet2 m.exp b p
  let sa ← (List.range m.nuisances.toNat).foldlM
    (fun (acc : String × String) n => do
      let s ← pyGet3 m.systs n b p
      if s ≠ 1 then
        pure (acc.1 ++ " * pow(" ++ fmtF s ++ ",theta_" ++ toString n ++ ")",
              acc.2 ++ ", theta_" ++ toString n)
      else pure acc)
    (fmtG e ++ " ", "")
  if sa.2 ≠ "" then
    pure ("n_exp_bin" ++ toString b ++ "_proc" ++ toString p ++ " = expr('" ++ sa.1 ++ "'"
      ++ sa.2 ++ ");")
  else do
    let e2 ← pyGet2 m.exp b p
    pure ("n_exp_bin" ++ toString b ++ "_proc" ++ toString p ++ "[" ++ fmtG e2 ++ "];")

/-- The per-process symbol name `n_exp_bin<b>_proc<p>`. -/
def nExpName (b p : Nat) : String :=
  "n_exp_bin" ++ toString b ++ "_proc" ++ toString p

/-- Lines 94-99: after the per-process statements of bin `b`, the total
(`r*` on the joined sum, `r` and every per-process term as arguments) and
the background-only total over processes `1..`. -/
def binTotals (m : Model) (b : Nat) : List String :=
  let expr_sb := pyJoin "+" ((List.range m.processes.toNat).map (nExpName b))
  let expr_b := pyJoin "+" ((pyRange 1 m.processes.toNat).map (nExpName b))
  let args_sb := pyJoin "," ((List.range m.processes.toNat).map (nExpName b))
  let args_b := pyJoin "," ((pyRange 1 m.processes.toNat).map (nExpName b))
  ["n_exp_bin" ++ toString b ++ "       = expr('r*" ++ expr_sb ++ "',r, " ++ args_sb ++ ");",
   "n_exp_bin" ++ toString b ++ "_bonly = expr('  " ++ expr_b ++ "',   " ++ args_b ++ ");"]

/-- Lines 82-99: the expected-yield section. -/
def yieldSection (m : Model) : Emit :=
  seqE (["/// --- Expected events in each bin, for each process ----"], none)
    (seqLoop
      (fun b => seqE (emitLoop (procStmt m b) m.processes.toNat) (binTotals m b, none))
      m.bins.toNat)

/-- Lines 101-104: the per-bin Poisson densities. -/
def pdfSection (m : Model) : Emit :=
  ("/// --- Expected events in each bin, total (S+B and B) ----" ::
    ((List.range m.bins.toNat).flatMap fun b =>
      ["pdf_bin" ++ toString b ++ "       = Poisson(n_obs_bin" ++ toString b ++ ", n_exp_bin"
        ++ toString b ++ ");",
       "pdf_bin" ++ toString b ++ "_bonly = Poisson(n_obs_bin" ++ toString b ++ ", n_exp_bin"
        ++ toString b ++ "_bonly);"]),
    none)

/-- `pdf_bin<b>`. -/
def pdfName (b : Nat) : String := "pdf_bin" ++ toString b

/-- `pdf_bin<b>_bonly`. -/
def pdfNameB (b : Nat) : String := "pdf_bin" ++ toString b ++ "_bonly"

/-- Lines 108-118: aggregation of the per-bin densities under symbol
prefix `pfx`. Above 50 bins, blocks of (up to) 10 consecutive bins are
multiplied first (`int(ceil(bins/10.))` blocks, written here as
`(bins + 9) / 10`, the same value for every realistic card size), then
one statement multiplies the blocks; otherwise a single product combines
the first `min(50, bins)` densities. -/
def aggLines (pfx : String) (bins : Int) : List String :=
  if 50 < bins then
    let nblocks := (bins.toNat + 9) / 10
    ((List.range nblocks).flatMap fun i =>
      [pfx ++ "_s_" ++ toString i ++ " = PROD( " ++
        pyJoin "," ((pyRange (10 * i) (min bins.toNat (10 * i + 10))).map pdfName) ++ " );",
       pfx ++ "_b_" ++ toString i ++ " = PROD( " ++
        pyJoin "," ((pyRange (10 * i) (min bins.toNat (10 * i + 10))).map pdfNameB) ++ " );"]) ++
    [pfx ++ "_s = PROD( " ++
      pyJoin "," ((List.range nblocks).map fun i => pfx ++ "_s_" ++ toString i) ++ " );",
     pfx ++ "_b = PROD( " ++
      pyJoin "," ((List.range nblocks).map fun i => pfx ++ "_b_" ++ toString i) ++ " );"]
  else
    [pfx ++ "_s = PROD(\x7b " ++ pyJoin "," ((List.range (min 50 bins.toNat)).map pdfName)
      ++ " \x7d);",
     pfx ++ "_b = PROD(\x7b " ++ pyJoin "," ((List.range (min 50 bins.toNat)).map pdfNameB)
      ++ " \x7d);"]

/-- Lines 106-122: prefix selection (`model` directly when there are no
nuisances), aggregation, and the final multiplication by the nuisance
prior product when nuisances are present. -/
def modelSection (m : Model) : Emit :=
  seqE (aggLines (if m.nuisances ≠ 0 then "modelObs" else "model") m.bins, none)
    (if m.nuisances ≠ 0 then
      (["model_s = PROD(modelObs_s, nuisancePdf);",
        "model_b = PROD(modelObs_b, nuisancePdf);"], none)
    else ([], none))

/-- Lines 60-122: everything the script prints, in order. -/
def generate (m : Model) : Emit :=
  seqE (obsSection m)
    (seqE poiSection
      (seqE (nuisSection m)
        (seqE (yieldSection m)
          (seqE (pdfSection m) (modelSection m)))))

/-- Lines 50-52: `--stat` discards the systematics. -/
def statMut (m : Model) : Model :=
  { m with nuisances := 0, systs := [] }

/-- Lines 54-55: `--asimov` overwrites the observation with the sum of the
expected yields of processes `1..` of each rate row. -/
def asimovMut (m : Model) : Model :=
  { m with obs := m.exp.map fun r => (r.drop 1).sum }

/-- The whole program on a card's lines and the two flags: parse, apply the
option mutations, check the systematics count (line 57, before any output),
then generate. A parse-time failure prints nothing. -/
def run (input : List String) (stat asimov : Bool) : Emit :=
  match parseCard input with
  | .error e => ([], some e)
  | .ok m =>
    let m1 := if stat then statMut m else m
    let m2 := if asimov then asimovMut m1 else m1
    if (m2.systs.length : Int) ≠ m2.nuisances then
      ([], some (.runtimeError ("Found " ++ toString m2.systs.length
        ++ " systematics, expected " ++ toString m2.nuisances)))
    else generate m2

/-- `pat` is a prefix of `s` (character lists). -/
def isPre : List Char → List Char → Bool
  | [], _ => true
  | _ :: _, [] => false
  | a :: as, b :: bs => a = b && isPre as bs

/-- `pat` occurs somewhere inside `s` (character lists). -/
def hasSub (pat : List Char) : List Char → Bool
  | [] => pat.isEmpty
  | s@(_ :: rest) => isPre pat s || hasSub pat rest

/-- `pat` occurs somewhere inside the string `s`. -/
def strHasSub (pat s : String) : Bool :=
  hasSub pat.data s.data

/-!  The concrete datacards the claims are settled on. -/

/-- The spec's example scenario: one bin, two processes (signal plus one
background), rates 10 and 5, no systematics, no observation. -/
def exampleCard : List String :=
  ["imax 1", "jmax 1", "kmax 0", "bin 1 1", "process 0 1", "rate 10 5"]

/-- A card declaring `kmax 2` but carrying a single (well-formed)
systematics row. -/
def shortSystCard : List String :=
  ["imax 1", "jmax 0", "kmax 2", "bin 1", "process 0", "rate 3", "1 lnN 2"]

/-- A card whose systematics row carries `bins*processes - 1` scale
factors: none here, where one is required. -/
def oneShortRowCard : List String :=
  ["imax 1", "jmax 0", "kmax 1", "bin 1", "process 0", "rate 3", "1 lnN"]

/-- A card whose `bin` row writes bin index 2 where `i/processes + 1 = 1`
is required. -/
def badBinCard : List String :=
  ["imax 1", "jmax 1", "kmax 0", "bin 1 2"]

/-- A card whose `Observation` line (1 value) precedes the `imax 2`
declaration it disagrees with. -/
def obsFirstCard : List String :=
  ["Observation 1", "imax 2", "jmax 0", "kmax 0", "bin 1 2", "process 0 0", "rate 10 20"]

/-- A card with none of the `imax`, `jmax`, `kmax` header lines. -/
def headerlessCard : List String :=
  ["bin 1", "process 0", "rate 3"]

/-- Concatenation of a list of strings. -/
def strConcat : List String → String
  | [] => ""
  | x :: xs => x ++ strConcat xs

/-- The nuisance indices whose scale factor at the bin/process at hand
differs from 1.0: exactly the ones line 87's test keeps. -/
def activeIdx (nNuis : Nat) (scale : Nat → ℚ) : List Nat :=
  (List.range nNuis).filter fun n => decide (scale n ≠ 1)

/-- The statement of `procStmt` written directly over the list `idxs` of
contributing nuisance indices: the `pow` factors and `theta` arguments
range over `idxs` and nothing else, and an empty `idxs` gives the plain
fixed-value symbol. -/
def renderYield (b p : Nat) (e : ℚ) (idxs : List Nat) (scale : Nat → ℚ) : String :=
  let strexpr := fmtG e ++ " " ++
    strConcat (idxs.map fun n => " * pow(" ++ fmtF (scale n) ++ ",theta_" ++ toString n ++ ")")
  let args := strConcat (idxs.map fun n => ", theta_" ++ toString n)
  if args ≠ "" then
    "n_exp_bin" ++ toString b ++ "_proc" ++ toString p ++ " = expr('" ++ strexpr ++ "'"
      ++ args ++ ");"
  else
    "n_exp_bin" ++ toString b ++ "_proc" ++ toString p ++ "[" ++ fmtG e ++ "];"

/-- The first token of a line, if any. -/
def firstTok (l : String) : Option String :=
  (pySplit l).head?

/-!  The claims. -/

/-- Claim C7: the claim says a `bin` cell differing from `i/processes + 1`
makes the parser fail with a descriptive structural error reporting the
line's context. The failure is immediate, but what the code raises is a
`NameError`: line 30's error message interpolates `line`, a variable the
script never defines (the loop variable is `l`), so the intended
`RuntimeError` with the line's text is never built. Evaluated at a card
whose `bin` row says 2 where 1 is required. -/
theorem c7_bad_bin_cell_raises_nameError :
    parseCard badBinCard = .error .nameError := by
  with_unfolding_all decide

/-- Claim C6: the claim says a systematics row with fewer than
`bins * processes` scale factors is rejected with a descriptive
field-count error, never a raw indexing fault. Line 44 checks
`len(f[1:]) < bins * processes`, but the scale factors start at `f[2]`,
so a row with exactly `bins * processes - 1` of them passes the check and
dies at `f[2 + ...]` with a bare `IndexError`. Evaluated at a row with no
scale factor where one is required. -/
theorem c6_one_short_row_raises_indexError :
    parseCard oneShortRowCard = .error .indexError := by
  with_unfolding_all decide

/-- Claim C1 (counterexample): on the spec's example card the program
never emits `n_exp_bin0` as `r` times the sum of both per-process terms:
the spec's expected formula `r*(n_exp_bin0_proc0+n_exp_bin0_proc1)` (its
own backticked text) appears nowhere — no emitted line even contains the
substring `r*(` — while the actual statement multiplies `r` into the
first term only. -/
theorem c1_no_parenthesized_sum :
    ((run exampleCard false false).1.contains
      "n_exp_bin0       = expr('r*(n_exp_bin0_proc0+n_exp_bin0_proc1)',r, n_exp_bin0_proc0,n_exp_bin0_proc1);"
      = false)
    ∧ (((run exampleCard false false).1.any fun s => strHasSub "r*(" s) = false)
    ∧ ((run exampleCard false false).1.contains
      "n_exp_bin0       = expr('r*n_exp_bin0_proc0+n_exp_bin0_proc1',r, n_exp_bin0_proc0,n_exp_bin0_proc1);"
      = true) := by
  with_unfolding_all decide

/-- Claim C1 (amended): for the card with bins=1, processes=2, rates
[10, 5], no systematics and no Observation line, the program emits
exactly the statements below: the plain symbols `n_exp_bin0_proc0[10];`
and `n_exp_bin0_proc1[5];`; `n_exp_bin0` with formula
`r*n_exp_bin0_proc0+n_exp_bin0_proc1` — `r` scaling the signal term only,
the background term added unscaled — parametrized by `r` and both terms;
`n_exp_bin0_bonly` over process 1 only; and `n_obs_bin0` as the free
range `[0,10000]`. -/
theorem c1_example_card_output :
    run exampleCard false false =
      (["/// ----- observables -----",
        "n_obs_bin0[0,10000];",
        "observables = set( n_obs_bin0 );",
        "",
        "/// ----- parameters of interest -----",
        "// signal strenght",
        "r[0,20];",
        "// set of all paramers of interest",
        "POI = set(r);",
        "",
        "/// --- Expected events in each bin, for each process ----",
        "n_exp_bin0_proc0[10];",
        "n_exp_bin0_proc1[5];",
        "n_exp_bin0       = expr('r*n_exp_bin0_proc0+n_exp_bin0_proc1',r, n_exp_bin0_proc0,n_exp_bin0_proc1);",
        "n_exp_bin0_bonly = expr('  n_exp_bin0_proc1',   n_exp_bin0_proc1);",
        "/// --- Expected events in each bin, total (S+B and B) ----",
        "pdf_bin0       = Poisson(n_obs_bin0, n_exp_bin0);",
        "pdf_bin0_bonly = Poisson(n_obs_bin0, n_exp_bin0_bonly);",
        "model_s = PROD(\x7b pdf_bin0 \x7d);",
        "model_b = PROD(\x7b pdf_bin0_bonly \x7d);"], none) := by
  with_unfolding_all decide

/-- Claim C5 (counterexample): with the statistics-only flag set, a card
whose declared `kmax` (2) differs from its parsed systematics-row count
(1) is not rejected: line 51 zeroes both sides before line 57 compares
them, and the program runs to completion and emits output. -/
theorem c5_stat_flag_skips_count_check :
    parseCard shortSystCard =
      .ok { bins := 1, processes := 1, nuisances := 2, obs := [],
            exp := [[3]], systs := [[[2]]] }
    ∧ (run shortSystCard true false).2 = none
    ∧ (run shortSystCard true false).1 ≠ [] := by
  with_unfolding_all decide

/-- Claim C8 (counterexample): an input whose `Observation` line carries 1
value but declares `imax 2` — with the `Observation` line placed before
`imax` — parses without complaint (line 26 compares against the default
bin count 1 still in effect), and the run then dies with a bare
`IndexError` at line 62 after two output lines have already been printed:
neither a descriptive error nor one raised before output. -/
theorem c8_obs_before_imax_partial_output :
    run obsFirstCard false false =
      (["/// ----- observables (already set to asimov values) -----",
        "n_obs_bin0[1.000000,0,10000];"], some .indexError) := by
  with_unfolding_all decide

/-- Claim C9: for every valid datacard declaring zero systematics (so the
parse yields `nuisances = 0` and, for the count check to ever pass, an
empty systematics list), the whole emitted output — lines and final
status — is identical with and without the statistics-only flag, the
Asimov flag held fixed: the flag's only effect is to zero what is already
zero. -/
theorem c9_stat_flag_noop_without_systematics (input : List String) (m : Model) (a : Bool)
    (hp : parseCard input = .ok m) (hn : m.nuisances = 0) (hs : m.systs = []) :
    run input true a = run input false a := by
  have h1 : statMut m = m := by
    cases m
    simp only [statMut, Model.mk.injEq] at *
    simp_all
  simp [run, hp, h1]

/-- Claim C9, witness: the two runs coincide on a concrete zero-systematics
card. -/
theorem c9_witness :
    run ["imax 1", "jmax 0", "kmax 0", "bin 1", "process 0", "rate 3"] true false =
    run ["imax 1", "jmax 0", "kmax 0", "bin 1", "process 0", "rate 3"] false false :=
  c9_stat_flag_noop_without_systematics _
    { bins := 1, processes := 1, nuisances := 0, obs := [], exp := [[3]], systs := [] }
    false (by with_unfolding_all decide) rfl rfl

/-- Claim C5 (amended): when the statistics-only flag is NOT set, any
mismatch between the parsed systematics-row count and the declared
`kmax` is fatal — the line-57 check raises the descriptive `RuntimeError`
before a single output line is printed, whatever the Asimov flag. (With
the statistics-only flag the check is vacuous: line 51 zeroes both sides
first, as the counterexample shows.) -/
theorem c5_count_mismatch_fatal_without_stat (input : List String) (m : Model) (a : Bool)
    (hp : parseCard input = .ok m) (hne : (m.systs.length : Int) ≠ m.nuisances) :
    run input false a =
      ([], some (.runtimeError ("Found " ++ toString m.systs.length
        ++ " systematics, expected " ++ toString m.nuisances))) := by
  cases a <;> simp [run, hp, asimovMut, hne]

/-- Claim C5, witness: the mismatching card is rejected with the
descriptive message when the flag is off. -/
theorem c5_witness :
    run shortSystCard false false =
      ([], some (.runtimeError "Found 1 systematics, expected 2")) :=
  c5_count_mismatch_fatal_without_stat shortSystCard
    { bins := 1, processes := 1, nuisances := 2, obs := [], exp := [[3]], systs := [[[2]]] }
    false (by with_unfolding_all decide) (by decide)

/-- Claim C8 (amended): the Observation check compares against the bin
count in effect when the line is read, so it enforces the declared `imax`
exactly when `imax` precedes the `Observation` line. Whenever the line's
(float-parsable) value count differs from that current bin count, the
parser raises the descriptive `RuntimeError` at once; and any parse-time
error yields an empty output, so the failure happens before any output
statement. (When `Observation` precedes `imax`, the counterexample shows
the mismatch instead surfaces later as a bare `IndexError`, after output
has begun.) -/
theorem c8_obs_count_checked_against_current_bins :
    (∀ (st : Model) (l : String) (vals : List String) (qs : List ℚ),
      pySplit l = "Observation" :: vals →
      mapFloat vals = .ok qs →
      (qs.length : Int) ≠ st.bins →
      step st l = .error (.runtimeError ("Found " ++ toString qs.length
        ++ " observations but " ++ toString st.bins ++ " bins")))
    ∧ (∀ (input : List String) (stat asimov : Bool) (e : PyErr),
      parseCard input = .error e → run input stat asimov = ([], some e)) := by
  constructor
  · intro st l vals qs hsplit hq hne
    simp [step, stepTok, hsplit, hq, hne]
    exact if_neg hne
  · intro input stat asimov e hp
    simp [run, hp]

/-- Claim C8, witness: at the default state (1 bin), an `Observation` line
with two values raises the descriptive error, and a concrete parse error
(the counterexample card of claim C7) produces no output. -/
theorem c8_witness :
    step initState "Observation 1 2" =
      .error (.runtimeError "Found 2 observations but 1 bins")
    ∧ run badBinCard false false = ([], some .nameError) :=
  ⟨c8_obs_count_checked_against_current_bins.1 initState "Observation 1 2" ["1", "2"] [1, 2]
      (by with_unfolding_all decide) (by with_unfolding_all decide) (by decide),
   c8_obs_count_checked_against_current_bins.2 badBinCard false false .nameError
      (by with_unfolding_all decide)⟩

/-- Emitting two statements per index gives twice as many lines. -/
theorem length_flatMap_pair {α : Type} (g h : Nat → α) (N : Nat) :
    ((List.range N).flatMap fun i => [g i, h i]).length = 2 * N := by
  induction N with
  | zero => rfl
  | succ n ih =>
    rw [List.range_succ, List.flatMap_append, List.length_append, ih]
    simp [Nat.mul_succ]

/-- Claim C4: above 50 bins the aggregation emits `⌈bins/10⌉` block
products per model variant — for each block index `i` below that count,
one `_s_<i>` and one `_b_<i>` product over the densities of bins
`10*i .. min(bins, 10*i+10)-1`, never more than 10 of them — followed by
the one combining statement per variant (hence `2*⌈bins/10⌉ + 2` lines);
at 50 bins or fewer it emits exactly one direct product per variant over
the first `min(50, bins)` densities. -/
theorem c4_aggregation_blocks (pfx : String) (bins : Int) :
    (50 < bins →
      (aggLines pfx bins).length = 2 * ((bins.toNat + 9) / 10) + 2
      ∧ ∀ i < (bins.toNat + 9) / 10,
          ((pfx ++ "_s_" ++ toString i ++ " = PROD( " ++
            pyJoin "," ((pyRange (10 * i) (min bins.toNat (10 * i + 10))).map pdfName) ++ " );")
            ∈ aggLines pfx bins)
          ∧ ((pfx ++ "_b_" ++ toString i ++ " = PROD( " ++
            pyJoin "," ((pyRange (10 * i) (min bins.toNat (10 * i + 10))).map pdfNameB) ++ " );")
            ∈ aggLines pfx bins)
          ∧ (pyRange (10 * i) (min bins.toNat (10 * i + 10))).length ≤ 10)
    ∧ (bins ≤ 50 →
      aggLines pfx bins =
        [pfx ++ "_s = PROD(\x7b " ++
          pyJoin "," ((List.range (min 50 bins.toNat)).map pdfName) ++ " \x7d);",
         pfx ++ "_b = PROD(\x7b " ++
          pyJoin "," ((List.range (min 50 bins.toNat)).map pdfNameB) ++ " \x7d);"]) := by
  constructor
  · intro h
    refine ⟨?_, ?_⟩
    · simp only [aggLines, if_pos h]
      rw [List.length_append, length_flatMap_pair]
      rfl
    · intro i hi
      refine ⟨?_, ?_, ?_⟩
      · simp only [aggLines, if_pos h]
        refine List.mem_append_left _ (List.mem_flatMap.mpr ⟨i, List.mem_range.mpr hi, ?_⟩)
        simp
      · simp only [aggLines, if_pos h]
        refine List.mem_append_left _ (List.mem_flatMap.mpr ⟨i, List.mem_range.mpr hi, ?_⟩)
        simp
      · have hm := min_le_right bins.toNat (10 * i + 10)
        simp only [pyRange, List.length_range']
        omega
  · intro h
    simp only [aggLines, if_neg (not_lt.mpr h)]

/-- Claim C4, witness: at 60 bins the blocked path is taken, emitting six
block products per variant (14 lines in all), the last block covering
bins 50-59. -/
theorem c4_witness :
    (aggLines "modelObs" 60).length = 14
    ∧ ("modelObs_s_5 = PROD( pdf_bin50,pdf_bin51,pdf_bin52,pdf_bin53,pdf_bin54,pdf_bin55,pdf_bin56,pdf_bin57,pdf_bin58,pdf_bin59 );"
        ∈ aggLines "modelObs" 60) :=
  ⟨((c4_aggregation_blocks "modelObs" 60).1 (by decide)).1,
   (((c4_aggregation_blocks "modelObs" 60).1 (by decide)).2 5 (by decide)).1⟩

/-- `Except`'s bind on a success is application. -/
theorem exceptBind_ok {ε α β : Type} (a : α) (f : α → Except ε β) :
    (Except.ok a >>= f : Except ε β) = f a := rfl

/-- `Except`'s bind on a failure keeps the failure. -/
theorem exceptBind_err {ε α β : Type} (e : ε) (f : α → Except ε β) :
    (Except.error e >>= f : Except ε β) = .error e := rfl

/-- `Except`'s pure is `.ok`. -/
theorem exceptPure {ε α : Type} (a : α) : (pure a : Except ε α) = .ok a := rfl

/-- The accumulator loop of lines 86-89, run over any index list whose
scale factors all read back successfully: it extends the two accumulated
strings with one `pow` factor and one `theta` argument for each index
whose scale differs from 1.0, in order, skipping the others. -/
theorem yield_foldlM (m : Model) (b p : Nat) (scale : Nat → ℚ) (l : List Nat)
    (hl : ∀ n ∈ l, pyGet3 m.systs n b p = .ok (scale n)) :
    ∀ s0 a0 : String,
    (List.foldlM (m := Except PyErr)
      (fun (acc : String × String) n => do
        let s ← pyGet3 m.systs n b p
        if s ≠ 1 then
          pure (acc.1 ++ " * pow(" ++ fmtF s ++ ",theta_" ++ toString n ++ ")",
                acc.2 ++ ", theta_" ++ toString n)
        else pure acc)
      (s0, a0) l)
    = .ok (s0 ++ strConcat ((l.filter fun n => decide (scale n ≠ 1)).map fun n =>
            " * pow(" ++ fmtF (scale n) ++ ",theta_" ++ toString n ++ ")"),
           a0 ++ strConcat ((l.filter fun n => decide (scale n ≠ 1)).map fun n =>
            ", theta_" ++ toString n)) := by
  induction l with
  | nil =>
    intro s0 a0
    simp [strConcat, String.append_empty, exceptPure]
  | cons n t ih =>
    intro s0 a0
    have hn := hl n (List.mem_cons_self _ _)
    rw [List.foldlM_cons, hn, exceptBind_ok]
    by_cases h1 : scale n = 1
    · rw [if_neg (by simp [h1]), List.filter_cons_of_neg (by simp [h1])]
      exact ih (fun x hx => hl x (List.mem_cons_of_mem _ hx)) s0 a0
    · rw [if_pos (by simp [h1]), exceptPure, exceptBind_ok,
        List.filter_cons_of_pos (by simp [h1]), List.map_cons, List.map_cons]
      rw [ih (fun x hx => hl x (List.mem_cons_of_mem _ hx))]
      simp [strConcat, String.append_assoc]

/-- Claim C3: over any bin/process pair whose rate and scale factors read
back successfully, the emitted `n_exp_bin<b>_proc<p>` statement is
exactly the rendering over the list of nuisance indices whose scale
differs from 1.0 (`activeIdx`): a nuisance with scale exactly 1.0 is not
in that list, so neither its `pow` factor nor its `theta_<n>` argument
appears; and when every scale is 1.0 the statement degenerates to the
plain fixed-value symbol `n_exp_bin<b>_proc<p>[<rate>];`. -/
theorem c3_unit_scale_omitted (m : Model) (b p : Nat) (e : ℚ) (scale : Nat → ℚ)
    (he : pyGet2 m.exp b p = .ok e)
    (hs : ∀ n < m.nuisances.toNat, pyGet3 m.systs n b p = .ok (scale n)) :
    procStmt m b p = .ok (renderYield b p e (activeIdx m.nuisances.toNat scale) scale)
    ∧ (∀ n < m.nuisances.toNat, scale n = 1 → n ∉ activeIdx m.nuisances.toNat scale)
    ∧ ((∀ n < m.nuisances.toNat, scale n = 1) →
        procStmt m b p = .ok ("n_exp_bin" ++ toString b ++ "_proc" ++ toString p
          ++ "[" ++ fmtG e ++ "];")) := by
  have hmain : procStmt m b p
      = .ok (renderYield b p e (activeIdx m.nuisances.toNat scale) scale) := by
    simp only [procStmt, he, exceptBind_ok]
    rw [yield_foldlM m b p scale _ (fun n hn => hs n (List.mem_range.mp hn)), exceptBind_ok]
    simp [renderYield, activeIdx, String.empty_append, he, exceptBind_ok, exceptPure]
    split <;> rfl
  refine ⟨hmain, ?_, ?_⟩
  · intro n _ h1 hmem
    have := List.of_mem_filter hmem
    simp [h1] at this
  · intro hall
    have hnil : activeIdx m.nuisances.toNat scale = [] := by
      simp only [activeIdx, List.filter_eq_nil_iff]
      intro n hn
      simp [hall n (List.mem_range.mp hn)]
    rw [hmain, hnil]
    simp [renderYield, strConcat]

/-- Claim C3, witness: with two nuisances of scales 1.0 and 2.0 on a
one-bin, one-process card with rate 10, nuisance 0 is absent from the
active list and the statement renders over the active list; and on the
all-1.0 variant the plain symbol `n_exp_bin0_proc0[10];` is emitted. -/
theorem c3_witness :
    (procStmt ⟨1, 1, 2, [], [[10]], [[[1]], [[2]]]⟩ 0 0
      = .ok (renderYield 0 0 10
          (activeIdx 2 fun n => if n = 0 then 1 else 2) fun n => if n = 0 then 1 else 2))
    ∧ (0 ∉ activeIdx 2 fun n => if n = 0 then 1 else 2)
    ∧ (procStmt ⟨1, 1, 1, [], [[10]], [[[1]]]⟩ 0 0 = .ok "n_exp_bin0_proc0[10];") := by
  have hs2 : ∀ n < (Model.mk 1 1 2 [] [[10]] [[[1]], [[2]]]).nuisances.toNat,
      pyGet3 (Model.mk 1 1 2 [] [[10]] [[[1]], [[2]]]).systs n 0 0
        = .ok ((fun n => if n = 0 then (1 : ℚ) else 2) n) := by
    intro n hn
    have h2 : n = 0 ∨ n = 1 := by
      simp only [Model.mk] at hn
      omega
    rcases h2 with h | h <;> subst h <;> with_unfolding_all decide
  refine ⟨?_, ?_, ?_⟩
  · exact (c3_unit_scale_omitted ⟨1, 1, 2, [], [[10]], [[[1]], [[2]]]⟩ 0 0 10
      (fun n => if n = 0 then 1 else 2) (by with_unfolding_all decide) hs2).1
  · exact (c3_unit_scale_omitted ⟨1, 1, 2, [], [[10]], [[[1]], [[2]]]⟩ 0 0 10
      (fun n => if n = 0 then 1 else 2) (by with_unfolding_all decide) hs2).2.1 0
      (by decide) rfl
  · have h := (c3_unit_scale_omitted ⟨1, 1, 1, [], [[10]], [[[1]]]⟩ 0 0 10 (fun _ => 1)
      (by with_unfolding_all decide)
      (by intro n hn
          have h0 : n = 0 := by
            simp only [Model.mk] at hn
            omega
          subst h0
          with_unfolding_all decide)).2.2 (fun n _ => rfl)
    rw [h]
    with_unfolding_all rfl

/-- A line already printed by the first group is untouched by whatever
follows it. -/
theorem seqE_fst_get (a c : Emit) (i : Nat) (h : i < a.1.length) :
    (seqE a c).1.get? i = a.1.get? i := by
  rcases a with ⟨ls, e⟩
  cases e with
  | none =>
    simp only [seqE]
    exact List.get?_append h
  | some err => simp [seqE]

/-- Sequencing never drops lines already printed. -/
theorem seqE_fst_len (a c : Emit) : a.1.length ≤ (seqE a c).1.length := by
  rcases a with ⟨ls, e⟩
  cases e with
  | none => simp [seqE]
  | some err => simp [seqE]

/-- A line the first group prints is found unchanged in the sequenced
output. -/
theorem seqE_fst_get_of_some (a c : Emit) (i : Nat) (x : String)
    (h : a.1.get? i = some x) : (seqE a c).1.get? i = some x := by
  rcases a with ⟨ls, e⟩
  cases e with
  | none =>
    simp only [seqE]
    obtain ⟨hlt, -⟩ := List.get?_eq_some.mp h
    rw [List.get?_append hlt]
    exact h
  | some err => simpa [seqE] using h

/-- When every statement of the loop builds cleanly, the loop prints one
line per index, in order. -/
theorem emitLoop_all_ok (f : Nat → Except PyErr String) (g : Nat → String) :
    ∀ n, (∀ i < n, f i = .ok (g i)) → emitLoop f n = ((List.range n).map g, none) := by
  intro n
  induction n with
  | zero => intro _; rfl
  | succ k ih =>
    intro h
    rw [emitLoop, ih (fun i hi => h i (Nat.lt_succ_of_lt hi)), h k (Nat.lt_succ_self k),
      List.range_succ, List.map_append]
    rfl

/-- As long as the statements up to index `b` build cleanly, the loop's
output starts with their lines, whatever happens later. -/
theorem emitLoop_get_pre (f : Nat → Except PyErr String) (g : Nat → String) (b : Nat) :
    ∀ n, b < n → (∀ i ≤ b, f i = .ok (g i)) →
    ∃ tl e, emitLoop f n = ((List.range (b + 1)).map g ++ tl, e) := by
  intro n
  induction n with
  | zero => intro h; omega
  | succ k ih =>
    intro hb h
    by_cases hbk : b < k
    · obtain ⟨tl, e, hE⟩ := ih hbk h
      cases e with
      | some err => exact ⟨tl, some err, by rw [emitLoop, hE]⟩
      | none =>
        cases hf : f k with
        | ok s => exact ⟨tl ++ [s], none, by rw [emitLoop, hE, hf]; simp⟩
        | error er => exact ⟨tl, some er, by rw [emitLoop, hE, hf]⟩
    · have hbe : b = k := by omega
      subst hbe
      refine ⟨[], none, ?_⟩
      rw [emitLoop, emitLoop_all_ok f g b (fun i hi => h i (le_of_lt hi)), h b le_rfl,
        List.range_succ, List.map_append]
      simp

/-- With observations present, the generated output's line `b + 1` is the
declaration of `n_obs_bin<b>` carrying `obs[b]` in range `[0, 10000]`. -/
theorem generate_obs_line (m' : Model) (b : Nat)
    (hb : b < m'.bins.toNat) (hlb : b < m'.obs.length) :
    (generate m').1.get? (b + 1)
      = some ("n_obs_bin" ++ toString b ++ "["
          ++ fmtF (m'.obs.getD b 0) ++ ",0,10000];") := by
  have hf : ∀ i, i ≤ b →
      (do
        let v ← pyGet m'.obs i
        pure ("n_obs_bin" ++ toString i ++ "[" ++ fmtF v ++ ",0,10000];")
        : Except PyErr String)
      = .ok ("n_obs_bin" ++ toString i ++ "[" ++ fmtF (m'.obs.getD i 0) ++ ",0,10000];") := by
    intro i hi
    have hil : i < m'.obs.length := lt_of_le_of_lt hi hlb
    have hx := List.get?_eq_get hil
    have hx2 : m'.obs[i]? = some (m'.obs.get ⟨i, hil⟩) := by
      rw [← List.get?_eq_getElem?]
      exact hx
    have hg : pyGet m'.obs i = .ok (m'.obs.getD i 0) := by
      unfold pyGet
      rw [hx]
      simp [List.getD, hx2]
    rw [hg, exceptBind_ok, exceptPure]
  obtain ⟨tl, e, hE⟩ := emitLoop_get_pre _
    (fun i => "n_obs_bin" ++ toString i ++ "[" ++ fmtF (m'.obs.getD i 0) ++ ",0,10000];")
    b m'.bins.toNat hb hf
  have hlen0 : m'.obs.length ≠ 0 := by omega
  have hA : obsSection m'
      = seqE ("/// ----- observables (already set to asimov values) -----" ::
          ((List.range (b + 1)).map
            (fun i => "n_obs_bin" ++ toString i ++ "[" ++ fmtF (m'.obs.getD i 0)
              ++ ",0,10000];") ++ tl), e)
        (["observables = set( " ++
          pyJoin "," ((List.range m'.bins.toNat).map fun i => "n_obs_bin" ++ toString i)
          ++ " );"], none) := by
    rw [obsSection, if_pos hlen0, hE]
    rfl
  have hgetA : ("/// ----- observables (already set to asimov values) -----" ::
      ((List.range (b + 1)).map
        (fun i => "n_obs_bin" ++ toString i ++ "[" ++ fmtF (m'.obs.getD i 0)
          ++ ",0,10000];") ++ tl)).get? (b + 1)
      = some ("n_obs_bin" ++ toString b ++ "[" ++ fmtF (m'.obs.getD b 0) ++ ",0,10000];") := by
    have hblt : b < ((List.range (b + 1)).map
        (fun i => "n_obs_bin" ++ toString i ++ "[" ++ fmtF (m'.obs.getD i 0)
          ++ ",0,10000];")).length := by
      simp
    rw [List.get?_cons_succ, List.get?_append hblt, List.get?_map,
      List.get?_range (Nat.lt_succ_self b)]
    rfl
  rw [generate]
  apply seqE_fst_get_of_some
  rw [hA]
  apply seqE_fst_get_of_some
  exact hgetA

/-- Claim C2: under the Asimov option, for every bin `b` (within the rate
table), the observation is overwritten with the sum of the expected
yields of processes `1..` of that bin, and the generated output's line
`b + 1` — the observable declaration for bin `b` — carries that sum as
its initial value inside the range `[0, 10000]`. -/
theorem c2_asimov_obs (m : Model) (b : Nat)
    (hb : b < m.bins.toNat) (he : b < m.exp.length) :
    (asimovMut m).obs.get? b = some (((m.exp.getD b []).drop 1).sum)
    ∧ (generate (asimovMut m)).1.get? (b + 1)
      = some ("n_obs_bin" ++ toString b ++ "["
          ++ fmtF (((m.exp.getD b []).drop 1).sum) ++ ",0,10000];") := by
  have hobs : (asimovMut m).obs.get? b = some (((m.exp.getD b []).drop 1).sum) := by
    have hx := List.get?_eq_get he
    simp only [asimovMut, List.get?_map, hx, Option.map_some]
    simp [List.getD, List.getElem?_eq_getElem he]
  have hlb : b < (asimovMut m).obs.length := by
    simpa [asimovMut] using he
  have hobs2 : (asimovMut m).obs[b]? = some (((m.exp.getD b []).drop 1).sum) := by
    rw [← List.get?_eq_getElem?]
    exact hobs
  have hgd : (asimovMut m).obs.getD b 0 = ((m.exp.getD b []).drop 1).sum := by
    simp [List.getD, hobs2]
  have hline := generate_obs_line (asimovMut m) b (by simpa [asimovMut] using hb) hlb
  rw [hgd] at hline
  exact ⟨hobs, hline⟩

/-- Claim C2, witness: on the rate table `[[10, 5]]` the Asimov mutation
sets `n_obs_bin0` to 5, and the generated line 1 declares it with initial
value 5 in `[0, 10000]`. -/
theorem c2_witness :
    (asimovMut ⟨1, 2, 0, [], [[10, 5]], []⟩).obs.get? 0 = some 5
    ∧ (generate (asimovMut ⟨1, 2, 0, [], [[10, 5]], []⟩)).1.get? 1
      = some "n_obs_bin0[5.000000,0,10000];" := by
  have h := c2_asimov_obs ⟨1, 2, 0, [], [[10, 5]], []⟩ 0 (by decide) (by decide)
  constructor
  · rw [h.1]
    with_unfolding_all rfl
  · rw [h.2]
    with_unfolding_all rfl

/-- Case analysis of one first-pass step: a line whose first token is
`imax` / `jmax` / `kmax` updates exactly that header field; every other
line leaves all three header fields (and everything except `obs` and
`exp`) unchanged. -/
theorem step_shape (st : Model) (l : String) (out : StepOut) (h : step st l = .ok out) :
    (firstTok l = some "imax" ∧ ∃ v, out.state = { st with bins := v })
    ∨ (firstTok l = some "jmax" ∧ ∃ v, out.state = { st with processes := v })
    ∨ (firstTok l = some "kmax" ∧ ∃ v, out.state = { st with nuisances := v })
    ∨ (∃ qs, out.state = { st with obs := qs })
    ∨ (∃ ex, out.state = { st with exp := ex })
    ∨ out.state = st := by
  simp only [step] at h
  cases hsplit : pySplit l with
  | nil =>
    rw [hsplit] at h
    simp only [stepTok, Except.ok.injEq] at h
    subst h
    exact Or.inr (Or.inr (Or.inr (Or.inr (Or.inr rfl))))
  | cons w fs =>
    rw [hsplit] at h
    simp only [stepTok] at h
    have htok : firstTok l = some w := by simp [firstTok, hsplit]
    by_cases h1 : w = "imax"
    · subst h1
      rw [if_pos rfl] at h
      cases hg : pyGet ("imax" :: fs) 1 with
      | error e => rw [hg, exceptBind_err] at h; exact absurd h (by simp)
      | ok t =>
        rw [hg, exceptBind_ok] at h
        cases hv : pyToInt t with
        | error e => rw [hv, exceptBind_err] at h; exact absurd h (by simp)
        | ok v =>
          rw [hv, exceptBind_ok] at h
          simp only [Except.ok.injEq] at h
          subst h
          exact Or.inl ⟨htok, v, rfl⟩
    · rw [if_neg h1] at h
      by_cases h2 : w = "jmax"
      · subst h2
        rw [if_pos rfl] at h
        cases hg : pyGet ("jmax" :: fs) 1 with
        | error e => rw [hg, exceptBind_err] at h; exact absurd h (by simp)
        | ok t =>
          rw [hg, exceptBind_ok] at h
          cases hv : pyToInt t with
          | error e => rw [hv, exceptBind_err] at h; exact absurd h (by simp)
          | ok v =>
            rw [hv, exceptBind_ok] at h
            simp only [Except.ok.injEq] at h
            subst h
            exact Or.inr (Or.inl ⟨htok, v + 1, rfl⟩)
      · rw [if_neg h2] at h
        by_cases h3 : w = "kmax"
        · subst h3
          rw [if_pos rfl] at h
          cases hg : pyGet ("kmax" :: fs) 1 with
          | error e => rw [hg, exceptBind_err] at h; exact absurd h (by simp)
          | ok t =>
            rw [hg, exceptBind_ok] at h
            cases hv : pyToInt t with
            | error e => rw [hv, exceptBind_err] at h; exact absurd h (by simp)
            | ok v =>
              rw [hv, exceptBind_ok] at h
              simp only [Except.ok.injEq] at h
              subst h
              exact Or.inr (Or.inr (Or.inl ⟨htok, v, rfl⟩))
        · rw [if_neg h3] at h
          by_cases h4 : w = "Observation"
          · subst h4
            rw [if_pos rfl] at h
            cases hg : mapFloat (("Observation" :: fs).drop 1) with
            | error e => rw [hg, exceptBind_err] at h; exact absurd h (by simp)
            | ok qs =>
              rw [hg, exceptBind_ok] at h
              by_cases hc : (qs.length : Int) = st.bins
              · rw [if_neg (not_not_intro hc)] at h
                simp only [Except.ok.injEq] at h
                subst h
                exact Or.inr (Or.inr (Or.inr (Or.inl ⟨qs, rfl⟩)))
              · rw [if_pos hc] at h
                exact absurd h (by simp)
          · rw [if_neg h4] at h
            by_cases h5 : w = "bin"
            · subst h5
              rw [if_pos rfl] at h
              by_cases hc : ((("bin" :: fs).drop 1).length : Int) = st.bins * st.processes
              · rw [if_neg (not_not_intro hc)] at h
                cases hk : checkBinCells (("bin" :: fs).drop 1) st.processes with
                | error e => rw [hk, exceptBind_err] at h; exact absurd h (by simp)
                | ok u =>
                  rw [hk, exceptBind_ok] at h
                  simp only [Except.ok.injEq] at h
                  subst h
                  exact Or.inr (Or.inr (Or.inr (Or.inr (Or.inr rfl))))
              · rw [if_pos hc] at h
                exact absurd h (by simp)
            · rw [if_neg h5] at h
              by_cases h6 : w = "process"
              · subst h6
                rw [if_pos rfl] at h
                by_cases hc : ((("process" :: fs).drop 1).length : Int) < st.bins * st.processes
                · rw [if_pos hc] at h
                  exact absurd h (by simp)
                · rw [if_neg hc] at h
                  simp only [Except.ok.injEq] at h
                  subst h
                  exact Or.inr (Or.inr (Or.inr (Or.inr (Or.inr rfl))))
              · rw [if_neg h6] at h
                by_cases h7 : w = "rate"
                · subst h7
                  rw [if_pos rfl] at h
                  by_cases hc : ((("rate" :: fs).drop 1).length : Int) < st.bins * st.processes
                  · rw [if_pos hc] at h
                    exact absurd h (by simp)
                  · rw [if_neg hc] at h
                    cases hk : (List.range st.bins.toNat).mapM
                        (rateRow ("rate" :: fs) st.processes) with
                    | error e => rw [hk, exceptBind_err] at h; exact absurd h (by simp)
                    | ok ex =>
                      rw [hk, exceptBind_ok] at h
                      simp only [Except.ok.injEq] at h
                      subst h
                      exact Or.inr (Or.inr (Or.inr (Or.inr (Or.inl ⟨ex, rfl⟩))))
                · rw [if_neg h7] at h
                  simp only [Except.ok.injEq] at h
                  subst h
                  exact Or.inr (Or.inr (Or.inr (Or.inr (Or.inr rfl))))

/-- A step on a line not headed `imax` keeps the bin count. -/
theorem step_bins_eq (st : Model) (l : String) (out : StepOut)
    (h : step st l = .ok out) (hne : firstTok l ≠ some "imax") :
    out.state.bins = st.bins := by
  rcases step_shape st l out h with ⟨hq, _, hv⟩ | ⟨_, _, hv⟩ | ⟨_, _, hv⟩
    | ⟨_, hv⟩ | ⟨_, hv⟩ | hv <;> first | exact absurd hq hne | rw [hv]

/-- A step on a line not headed `jmax` keeps the process count. -/
theorem step_processes_eq (st : Model) (l : String) (out : StepOut)
    (h : step st l = .ok out) (hne : firstTok l ≠ some "jmax") :
    out.state.processes = st.processes := by
  rcases step_shape st l out h with ⟨_, _, hv⟩ | ⟨hq, _, hv⟩ | ⟨_, _, hv⟩
    | ⟨_, hv⟩ | ⟨_, hv⟩ | hv <;> first | exact absurd hq hne | rw [hv]

/-- A step on a line not headed `kmax` keeps the nuisance count. -/
theorem step_nuisances_eq (st : Model) (l : String) (out : StepOut)
    (h : step st l = .ok out) (hne : firstTok l ≠ some "kmax") :
    out.state.nuisances = st.nuisances := by
  rcases step_shape st l out h with ⟨_, _, hv⟩ | ⟨_, _, hv⟩ | ⟨hq, _, hv⟩
    | ⟨_, hv⟩ | ⟨_, hv⟩ | hv <;> first | exact absurd hq hne | rw [hv]

/-- Across the whole first pass, a header field keeps its starting value
as long as no line starts with its keyword. -/
theorem firstPass_headers :
    ∀ (input : List String) (st st1 : Model) (rest : List String),
    firstPass st input = .ok (st1, rest) →
    ((∀ l ∈ input, firstTok l ≠ some "imax") → st1.bins = st.bins)
    ∧ ((∀ l ∈ input, firstTok l ≠ some "jmax") → st1.processes = st.processes)
    ∧ ((∀ l ∈ input, firstTok l ≠ some "kmax") → st1.nuisances = st.nuisances) := by
  intro input
  induction input with
  | nil =>
    intro st st1 rest h
    simp only [firstPass, Except.ok.injEq, Prod.mk.injEq] at h
    obtain ⟨h1, -⟩ := h
    subst h1
    exact ⟨fun _ => rfl, fun _ => rfl, fun _ => rfl⟩
  | cons l t ih =>
    intro st st1 rest h
    simp only [firstPass] at h
    cases hs : step st l with
    | error e => rw [hs] at h; exact absurd h (by simp)
    | ok o =>
      rw [hs] at h
      cases o with
      | cont st2 =>
        have ih2 := ih st2 st1 rest h
        refine ⟨?_, ?_, ?_⟩
        · intro hall
          rw [ih2.1 fun x hx => hall x (List.mem_cons_of_mem _ hx)]
          exact step_bins_eq st l _ hs (hall l (List.mem_cons_self _ _))
        · intro hall
          rw [ih2.2.1 fun x hx => hall x (List.mem_cons_of_mem _ hx)]
          exact step_processes_eq st l _ hs (hall l (List.mem_cons_self _ _))
        · intro hall
          rw [ih2.2.2 fun x hx => hall x (List.mem_cons_of_mem _ hx)]
          exact step_nuisances_eq st l _ hs (hall l (List.mem_cons_self _ _))
      | brk st2 =>
        simp only [Except.ok.injEq, Prod.mk.injEq] at h
        obtain ⟨h1, -⟩ := h
        subst h1
        refine ⟨?_, ?_, ?_⟩
        · intro hall
          exact step_bins_eq st l _ hs (hall l (List.mem_cons_self _ _))
        · intro hall
          exact step_processes_eq st l _ hs (hall l (List.mem_cons_self _ _))
        · intro hall
          exact step_nuisances_eq st l _ hs (hall l (List.mem_cons_self _ _))

/-- The second pass only ever appends to `systs`: the header counts, the
observation and the rate table come out as they went in. -/
theorem secondPass_headers :
    ∀ (input : List String) (st m : Model), secondPass st input = .ok m →
    m.bins = st.bins ∧ m.processes = st.processes ∧ m.nuisances = st.nuisances
    ∧ m.obs = st.obs ∧ m.exp = st.exp := by
  intro input
  induction input with
  | nil =>
    intro st m h
    simp only [secondPass, Except.ok.injEq] at h
    subst h
    exact ⟨rfl, rfl, rfl, rfl, rfl⟩
  | cons l t ih =>
    intro st m h
    simp only [secondPass] at h
    by_cases hd : startsDashDash l = true
    · rw [if_pos hd] at h
      exact ih st m h
    · rw [if_neg hd] at h
      cases hrow : (do
          let t0 ← pyGet (pySplit l) 0
          let isyst ← pyToInt t0
          let pdfName ← pyGet (pySplit l) 1
          if isyst ≠ (st.systs.length : Int) + 1 then
            .error (.runtimeError ("Unexpected systematic " ++ toString isyst))
          else if pdfName ≠ "lnN" then
            .error (.runtimeError ("Unsupported pdf " ++ pdfName))
          else if (((pySplit l).drop 1).length : Int) < st.bins * st.processes then
            .error (.runtimeError ("Malformed rate line: " ++ toString ((pySplit l).drop 1).length
              ++ ", while bins*processes = " ++ toString st.bins ++ "*" ++ toString st.processes))
          else (List.range st.bins.toNat).mapM (systRow (pySplit l) st.processes) :
            Except PyErr (List (List ℚ))) with
      | error e => rw [hrow] at h; exact absurd h (by simp)
      | ok errline =>
        rw [hrow] at h
        exact ih { st with systs := st.systs ++ [errline] } m h

/-- Claim C10: a card missing any of the `imax`, `jmax`, `kmax` header
lines parses without complaint about the absence, and the corresponding
model field keeps its built-in default — `bins = 1`, `processes = 1`,
`nuisances = 0` respectively — which is what every later cardinality
check and the generator then use. -/
theorem c10_missing_headers_default (input : List String) (m : Model)
    (hp : parseCard input = .ok m) :
    ((∀ l ∈ input, firstTok l ≠ some "imax") → m.bins = 1)
    ∧ ((∀ l ∈ input, firstTok l ≠ some "jmax") → m.processes = 1)
    ∧ ((∀ l ∈ input, firstTok l ≠ some "kmax") → m.nuisances = 0) := by
  simp only [parseCard] at hp
  cases hf : firstPass initState input with
  | error e => rw [hf, exceptBind_err] at hp; exact absurd hp (by simp)
  | ok pr =>
    rw [hf, exceptBind_ok] at hp
    have h1 := firstPass_headers input initState pr.1 pr.2 (by rw [hf])
    have h2 := secondPass_headers pr.2 pr.1 m hp
    refine ⟨?_, ?_, ?_⟩
    · intro hall
      rw [h2.1, h1.1 hall]
      rfl
    · intro hall
      rw [h2.2.1, h1.2.1 hall]
      rfl
    · intro hall
      rw [h2.2.2.1, h1.2.2 hall]
      rfl

/-- Claim C10, witness: the headerless card `bin/process/rate` parses
successfully, and the defaults 1/1/0 drive the result. -/
theorem c10_witness :
    parseCard headerlessCard
      = .ok { bins := 1, processes := 1, nuisances := 0, obs := [], exp := [[3]], systs := [] }
    ∧ (1 : Int) = 1 ∧ (1 : Int) = 1 ∧ (0 : Int) = 0 := by
  have hp : parseCard headerlessCard
      = .ok { bins := 1, processes := 1, nuisances := 0, obs := [], exp := [[3]], systs := [] } := by
    with_unfolding_all decide
  have h := c10_missing_headers_default headerlessCard
    { bins := 1, processes := 1, nuisances := 0, obs := [], exp := [[3]], systs := [] } hp
  exact ⟨hp, h.1 (by with_unfolding_all decide), h.2.1 (by with_unfolding_all decide),
    h.2.2 (by with_unfolding_all decide)⟩

end Lands2HLF
